import Mathlib

/-!
Verification model of the IntConnect data feeder (`src/index.js`): a Modbus
TCP chiller simulator with a 1000-cell holding-register array, three control
coils (300 = publish, 301 = reset, 302 = simulate), an IEEE-754 binary32
big-endian register codec, and a periodic tick that resets, ingests the
client-written setting, simulates temperatures and republishes.

JavaScript doubles are modelled as exact rationals (`ℚ`); the float32
narrowing performed by `Buffer.writeFloatBE` is modelled bit-exactly
(IEEE-754 round to nearest, ties to even) by `narrowToF32Bits`, computed on
the numerator/denominator of the rational so that it evaluates by kernel
reduction.  The value of `Math.sin(Date.now() / 10000)` is passed to the
tick as an explicit parameter `sinNow`, standing for the sine of the
wall-clock time sample of that tick.
-/

namespace DataFeeder

/-- Round the positive fraction `N / D` (with `D ≠ 0`) to the nearest
natural number, ties to even — the IEEE-754 default rounding mode applied
by `Buffer.writeFloatBE`. -/
def rndHalfEven (N D : ℕ) : ℕ :=
  let n := N / D
  let r := N % D
  if 2 * r < D then n
  else if D < 2 * r then n + 1
  else if n % 2 = 0 then n else n + 1

/-- `2 ^ e ≤ a / b` for a positive fraction `a / b`, decided by
cross-multiplication so it evaluates over ℕ alone. -/
def pow2le (e : ℤ) (a b : ℕ) : Bool :=
  if 0 ≤ e then decide (b * 2 ^ e.toNat ≤ a) else decide (b ≤ a * 2 ^ (-e).toNat)

/-- Index of the binary exponent used by float32 narrowing of the positive
fraction `a / b`: the first `i < 254` such that `2 ^ (127 - i) ≤ a / b`,
and 253 (the subnormal exponent −126) when there is none. -/
def f32expIdx (a b : ℕ) : ℕ :=
  ((List.range 254).find? (fun (i : ℕ) => pow2le (127 - (i : ℤ)) a b)).getD 253

/-- Binary exponent used by float32 narrowing of the positive fraction
`a / b`: the largest `e ∈ [-126, 127]` with `2 ^ e ≤ a / b`, and `-126`
when the magnitude is below the normal range (subnormal). -/
def f32exp (a b : ℕ) : ℤ :=
  127 - (f32expIdx a b : ℤ)

/-- Bit pattern (sign bit excluded) of the float32 nearest to the positive
fraction `a / b`: exponent field shifted into bits 30–23 plus the 23-bit
fraction field.  The significand is `a / b` scaled by `2 ^ (23 - e)` and
rounded half-to-even; magnitudes that round past the largest finite float32
give the infinity pattern `0x7F800000`, exactly the bits that
`Buffer.writeFloatBE` stores for an overflowing double. -/
def narrowPosBits (a b : ℕ) : ℕ :=
  let e := f32exp a b
  let t := if e ≤ 23 then rndHalfEven (a * 2 ^ (23 - e).toNat) b
           else rndHalfEven a (b * 2 ^ (e - 23).toNat)
  if 2 ^ 24 ≤ t then
    if e < 127 then (e + 128).toNat * 2 ^ 23 else 0x7F800000
  else if t < 2 ^ 23 then t
  else (e + 127).toNat * 2 ^ 23 + (t - 2 ^ 23)

/-- IEEE-754 binary32 bit pattern of the float32 nearest to `q`
(round to nearest, ties to even), as stored by `buffer.writeFloatBE`. -/
def narrowToF32Bits (q : ℚ) : ℕ :=
  if q.num < 0 then 2 ^ 31 + narrowPosBits (-q.num).toNat q.den
  else if q.num = 0 then 0
  else narrowPosBits q.num.toNat q.den

/-- `float32ToRegisters` (src/index.js:70-77): narrow the double to float32,
serialize big-endian into 4 bytes, and return bytes 0–1 and bytes 2–3 as
two 16-bit cells (`readUInt16BE(0)`, `readUInt16BE(2)`). -/
def float32ToRegisters (value : ℚ) : ℕ × ℕ :=
  let b := narrowToF32Bits value
  (b / 2 ^ 16, b % 2 ^ 16)

/-- The 32-bit pattern reassembled big-endian from two 16-bit register
cells (`buffer.writeUInt16BE` at offsets 0 and 2; cells are 16-bit). -/
def registersToFloat32Bits (reg1 reg2 : ℕ) : ℕ :=
  (reg1 % 2 ^ 16) * 2 ^ 16 + reg2 % 2 ^ 16

/-- Exact rational value of a finite float32 bit pattern; `none` for
exponent field 255 (infinities and NaN, which compare false against the
bounds used in the JavaScript source). -/
def f32RatOfBits (b : ℕ) : Option ℚ :=
  let sign : ℚ := if b / 2 ^ 31 % 2 = 1 then -1 else 1
  let ex : ℕ := b / 2 ^ 23 % 256
  let frac : ℕ := b % 2 ^ 23
  if ex = 255 then none
  else if ex = 0 then some (sign * frac / 2 ^ 149)
  else some (sign * ((2 ^ 23 + frac : ℕ) : ℚ) * 2 ^ ex / 2 ^ 150)

/-- `registersToFloat32` (src/index.js:80-85): reassemble the 4 bytes
big-endian and read them back as a float32; widening float32 → float64 is
exact, so the returned double is the float32's own value. -/
def registersToFloat32 (reg1 reg2 : ℕ) : Option ℚ :=
  f32RatOfBits (registersToFloat32Bits reg1 reg2)

example : narrowToF32Bits 7 = 0x40E00000 := by decide
example : narrowToF32Bits 12 = 0x41400000 := by decide
example : narrowToF32Bits (-40) = 0xC2200000 := by decide
example : narrowToF32Bits 0 = 0 := by decide
example : float32ToRegisters 7 = (16608, 0) := by decide

/-- The exact rational value of the IEEE-754 double written `3.14159` in
source code (significand 3537115888337719, scale 2⁻⁵⁰). -/
def pi64 : ℚ := ⟨3537115888337719, 2 ^ 50, by norm_num, by decide⟩

/-- Diagnostic lines emitted by the register/coil callbacks
(the `console.log` calls in src/index.js:44-66). -/
inductive LogEvent where
  | registerSet (addr : ℤ) (value : ℕ)
  | invalidRegister (addr : ℤ)
  | coilSet (addr : ℤ) (value : Bool)
  | invalidCoil (addr : ℤ)
deriving DecidableEq

/-- `vector.getInputRegister` (src/index.js:31-33): always 0. -/
def getInputRegister (_addr : ℤ) : ℕ := 0

/-- `vector.getHoldingRegister` (src/index.js:34-43): the stored cell for an
address inside `[0, holdingRegisters.length)`, otherwise 0.  The `unitID`
argument is accepted and unused, as in the source. -/
def getHoldingRegister (regs : List ℕ) (addr : ℤ) (_unitID : ℕ) : ℕ :=
  if 0 ≤ addr ∧ addr < regs.length then regs.getD addr.toNat 0 else 0

/-- Diagnostics emitted by `vector.getHoldingRegister` (src/index.js:34-43):
both the in-range and the out-of-range path return without any
`console.log`, so a holding-register read emits no event. -/
def getHoldingRegisterLogs (_regs : List ℕ) (_addr : ℤ) : List LogEvent := []

/-- `vector.setRegister` (src/index.js:44-51): store the value and log the
write when the address is inside `[0, holdingRegisters.length)`, otherwise
leave the array unchanged and log an invalid-address diagnostic. -/
def setRegister (regs : List ℕ) (addr : ℤ) (value : ℕ) : List ℕ × LogEvent :=
  if 0 ≤ addr ∧ addr < regs.length then
    (regs.set addr.toNat value, .registerSet addr value)
  else (regs, .invalidRegister addr)

/-- The coil object (src/index.js:16-20): exactly the three control coils
300 (enable publishing), 301 (reset values), 302 (enable simulation). -/
structure Coils where
  c300 : Bool
  c301 : Bool
  c302 : Bool
deriving DecidableEq

/-- `vector.getCoil` (src/index.js:52-58): the stored boolean for addresses
300–302, `false` for every other address. -/
def getCoil (c : Coils) (addr : ℤ) : Bool :=
  if 300 ≤ addr ∧ addr ≤ 302 then
    if addr = 300 then c.c300 else if addr = 301 then c.c301 else c.c302
  else false

/-- Diagnostics emitted by `vector.getCoil` (src/index.js:52-58): both the
in-range and the out-of-range path return without any `console.log`, so a
coil read emits no event. -/
def getCoilLogs (_c : Coils) (_addr : ℤ) : List LogEvent := []

/-- `vector.setCoil` (src/index.js:59-66): store the boolean and log the
write for addresses 300–302, otherwise leave the coils unchanged and log an
invalid-address diagnostic. -/
def setCoil (c : Coils) (addr : ℤ) (value : Bool) : Coils × LogEvent :=
  if 300 ≤ addr ∧ addr ≤ 302 then
    (if addr = 300 then { c with c300 := value }
     else if addr = 301 then { c with c301 := value }
     else { c with c302 := value }, .coilSet addr value)
  else (c, .invalidCoil addr)

/-- The `chillerData` object (src/index.js:23-27). -/
structure ChillerData where
  leavingTempSettings : ℚ
  enteringTemp : ℚ
  leavingTemp : ℚ
deriving DecidableEq

/-- `setFloat32Value` (src/index.js:88-92): split the value into two cells
and store them at `startAddr` and `startAddr + 1` (direct array writes). -/
def setFloat32Value (regs : List ℕ) (startAddr : ℕ) (value : ℚ) : List ℕ :=
  (regs.set startAddr (float32ToRegisters value).1).set (startAddr + 1)
    (float32ToRegisters value).2

/-- `getFloat32Value` (src/index.js:95-100): decode the two cells at
`startAddr` and `startAddr + 1`. -/
def getFloat32Value (regs : List ℕ) (startAddr : ℕ) : Option ℚ :=
  registersToFloat32 (regs.getD startAddr 0) (regs.getD (startAddr + 1) 0)

/-- The whole mutable state of the server: the holding-register array, the
three coils and the chiller process model. -/
structure ServerState where
  regs : List ℕ
  coils : Coils
  chillerData : ChillerData
deriving DecidableEq

/-- Tick step 1 (src/index.js:118-124): when coil 301 is set, restore the
default chiller values and clear the reset flag. -/
def tickReset (st : ServerState) : ServerState :=
  if st.coils.c301 then
    { st with chillerData := ⟨7, 12, 15/2⟩,
              coils := { st.coils with c301 := false } }
  else st

/-- Tick step 2 (src/index.js:127-130): decode the setting from registers
0–1 and adopt it when it lies strictly between 0 and 30.  A nonfinite
decode (`none`) fails both JavaScript comparisons, so it is not adopted. -/
def tickIngest (st : ServerState) : ServerState :=
  match getFloat32Value st.regs 0 with
  | some v =>
      if 0 < v ∧ v < 30 then
        { st with chillerData := { st.chillerData with leavingTempSettings := v } }
      else st
  | none => st

/-- Tick step 3 (src/index.js:133-141): when coil 302 is set, drive
`enteringTemp` from the wall-clock sinusoid (`sinNow` stands for
`Math.sin(Date.now() / 10000)`) and move `leavingTemp` one tenth of the way
toward the setting. -/
def tickSim (sinNow : ℚ) (st : ServerState) : ServerState :=
  if st.coils.c302 then
    { st with chillerData :=
        { st.chillerData with
            enteringTemp := 12 + sinNow * 2,
            leavingTemp := st.chillerData.leavingTemp +
              (st.chillerData.leavingTempSettings - st.chillerData.leavingTemp) * (1/10) } }
  else st

/-- Tick step 4 (src/index.js:144-156): when coil 300 is set, publish the
three chiller values into registers 0–5. -/
def tickPublish (st : ServerState) : ServerState :=
  if st.coils.c300 then
    let regs1 := setFloat32Value st.regs 0 st.chillerData.leavingTempSettings
    let regs2 := setFloat32Value regs1 2 st.chillerData.enteringTemp
    let regs3 := setFloat32Value regs2 4 st.chillerData.leavingTemp
    { st with regs := regs3 }
  else st

/-- One firing of the `setInterval` body (src/index.js:111-157): reset
check, setting ingestion, simulation, publish — in that order. -/
def tick (sinNow : ℚ) (st : ServerState) : ServerState :=
  tickPublish (tickSim sinNow (tickIngest (tickReset st)))

/-- Whether the setting-ingestion step of a tick adopts the value decoded
from registers 0–1 (the `currentSetting > 0 && currentSetting < 30` test of
src/index.js:128). -/
def ingestAdopts (regs : List ℕ) : Bool :=
  match getFloat32Value regs 0 with
  | some v => decide (0 < v ∧ v < 30)
  | none => false

/-- `initializeDefaultValues` (src/index.js:103-107) applied to a register
array: write the three chiller values to registers 0–5. -/
def initializeDefaultValues (regs : List ℕ) (cd : ChillerData) : List ℕ :=
  let regs1 := setFloat32Value regs 0 cd.leavingTempSettings
  let regs2 := setFloat32Value regs1 2 cd.enteringTemp
  setFloat32Value regs2 4 cd.leavingTemp

/-- The server state right after startup (src/index.js:13-27, 188-189):
1000 zeroed registers with the defaults published to registers 0–5, coils
300 and 302 on, coil 301 off, default chiller values. -/
def initialState : ServerState :=
  { regs := initializeDefaultValues (List.replicate 1000 0) ⟨7, 12, 15/2⟩,
    coils := ⟨true, false, true⟩,
    chillerData := ⟨7, 12, 15/2⟩ }

/-- A client register write arriving through the protocol adapter: only the
register array can change. -/
def clientWriteRegister (st : ServerState) (addr : ℤ) (value : ℕ) : ServerState :=
  { st with regs := (setRegister st.regs addr value).1 }

/-- A client coil write arriving through the protocol adapter: only the
coils can change. -/
def clientWriteCoil (st : ServerState) (addr : ℤ) (value : Bool) : ServerState :=
  { st with coils := (setCoil st.coils addr value).1 }

/-! ### Demonstration states used by witnesses and counterexamples -/

/-- Zeroed registers, publishing off, reset off, simulation on. -/
def demoSimOn : ServerState :=
  ⟨List.replicate 1000 0, ⟨false, false, true⟩, ⟨7, 12, 12⟩⟩

/-- Zeroed registers, publishing off, reset off, simulation off. -/
def demoSimOff : ServerState :=
  ⟨List.replicate 1000 0, ⟨false, false, false⟩, ⟨7, 12, 12⟩⟩

/-- Zeroed registers, reset requested with simulation still on. -/
def resetCexState : ServerState :=
  ⟨List.replicate 1000 0, ⟨false, true, true⟩, ⟨7, 12, 12⟩⟩

/-- Zeroed registers, reset requested, simulation off. -/
def demoResetOff : ServerState :=
  ⟨List.replicate 1000 0, ⟨false, true, false⟩, ⟨7, 12, 12⟩⟩

/-- All coils off, zeroed registers. -/
def detStA : ServerState :=
  ⟨List.replicate 1000 0, ⟨false, false, false⟩, ⟨7, 12, 12⟩⟩

/-- Like `detStA` but with the float 15.0 written to registers 0–1
(high cell 16752 = 0x4170, low cell 0). -/
def detStB : ServerState :=
  ⟨(List.replicate 1000 0).set 0 16752, ⟨false, false, false⟩, ⟨7, 12, 12⟩⟩

/-- Like `detStA` but with register 500 holding 123. -/
def detStC : ServerState :=
  ⟨(List.replicate 1000 0).set 500 123, ⟨false, false, false⟩, ⟨7, 12, 12⟩⟩

/-! ### Frame and step-equation lemmas for the tick phases -/

lemma tickReset_regs (st : ServerState) : (tickReset st).regs = st.regs := by
  unfold tickReset; split <;> rfl

lemma tickReset_c300 (st : ServerState) :
    (tickReset st).coils.c300 = st.coils.c300 := by
  unfold tickReset; split <;> rfl

lemma tickReset_c302 (st : ServerState) :
    (tickReset st).coils.c302 = st.coils.c302 := by
  unfold tickReset; split <;> rfl

lemma tickReset_coils (st : ServerState) :
    (tickReset st).coils =
      if st.coils.c301 then ⟨st.coils.c300, false, st.coils.c302⟩ else st.coils := by
  unfold tickReset; split <;> rfl

lemma tickReset_chillerData (st : ServerState) :
    (tickReset st).chillerData =
      if st.coils.c301 then ⟨7, 12, 15/2⟩ else st.chillerData := by
  unfold tickReset; split <;> rfl

lemma tickIngest_coils (st : ServerState) : (tickIngest st).coils = st.coils := by
  unfold tickIngest
  cases getFloat32Value st.regs 0 with
  | none => rfl
  | some v => dsimp only; split <;> rfl

lemma tickIngest_regs (st : ServerState) : (tickIngest st).regs = st.regs := by
  unfold tickIngest
  cases getFloat32Value st.regs 0 with
  | none => rfl
  | some v => dsimp only; split <;> rfl

lemma tickIngest_enteringTemp (st : ServerState) :
    (tickIngest st).chillerData.enteringTemp = st.chillerData.enteringTemp := by
  unfold tickIngest
  cases getFloat32Value st.regs 0 with
  | none => rfl
  | some v => dsimp only; split <;> rfl

lemma tickIngest_leavingTemp (st : ServerState) :
    (tickIngest st).chillerData.leavingTemp = st.chillerData.leavingTemp := by
  unfold tickIngest
  cases getFloat32Value st.regs 0 with
  | none => rfl
  | some v => dsimp only; split <;> rfl

lemma tickIngest_chillerData (st : ServerState) :
    (tickIngest st).chillerData =
      match getFloat32Value st.regs 0 with
      | some v => if 0 < v ∧ v < 30 then
            { st.chillerData with leavingTempSettings := v }
          else st.chillerData
      | none => st.chillerData := by
  unfold tickIngest
  cases getFloat32Value st.regs 0 with
  | none => rfl
  | some v => dsimp only; split <;> rfl

lemma tickIngest_of_not_adopts (st : ServerState) (h : ingestAdopts st.regs = false) :
    tickIngest st = st := by
  unfold tickIngest
  unfold ingestAdopts at h
  cases hd : getFloat32Value st.regs 0 with
  | none => rfl
  | some v =>
      rw [hd] at h
      dsimp only at h ⊢
      rw [if_neg (by simpa using h)]

lemma tickSim_regs (sinNow : ℚ) (st : ServerState) :
    (tickSim sinNow st).regs = st.regs := by
  unfold tickSim; split <;> rfl

lemma tickSim_coils (sinNow : ℚ) (st : ServerState) :
    (tickSim sinNow st).coils = st.coils := by
  unfold tickSim; split <;> rfl

lemma tickSim_settings (sinNow : ℚ) (st : ServerState) :
    (tickSim sinNow st).chillerData.leavingTempSettings
      = st.chillerData.leavingTempSettings := by
  unfold tickSim; split <;> rfl

lemma tickSim_chillerData (sinNow : ℚ) (st : ServerState) :
    (tickSim sinNow st).chillerData =
      if st.coils.c302 then
        { st.chillerData with
            enteringTemp := 12 + sinNow * 2,
            leavingTemp := st.chillerData.leavingTemp +
              (st.chillerData.leavingTempSettings - st.chillerData.leavingTemp) * (1/10) }
      else st.chillerData := by
  unfold tickSim; split <;> rfl

lemma tickSim_of_c302_false (sinNow : ℚ) (st : ServerState)
    (h : st.coils.c302 = false) : tickSim sinNow st = st := by
  unfold tickSim; rw [if_neg (by simp [h])]

lemma tickPublish_coils (st : ServerState) : (tickPublish st).coils = st.coils := by
  unfold tickPublish; split <;> rfl

lemma tickPublish_chillerData (st : ServerState) :
    (tickPublish st).chillerData = st.chillerData := by
  unfold tickPublish; split <;> rfl

lemma tick_coils (sinNow : ℚ) (st : ServerState) :
    (tick sinNow st).coils = ⟨st.coils.c300, false, st.coils.c302⟩ := by
  unfold tick
  rw [tickPublish_coils, tickSim_coils, tickIngest_coils]
  unfold tickReset
  split
  · rfl
  · rename_i h
    simp only [Bool.not_eq_true] at h
    rw [← h]

/-! ### Bounds on the float32 narrowing -/

lemma f32exp_le (a b : ℕ) : f32exp a b ≤ 127 := by
  unfold f32exp
  have hi : (0 : ℤ) ≤ (f32expIdx a b : ℤ) := Int.natCast_nonneg _
  omega

lemma narrowPosBits_lt (a b : ℕ) : narrowPosBits a b < 2 ^ 31 := by
  have he := f32exp_le a b
  unfold narrowPosBits
  dsimp only
  generalize (if f32exp a b ≤ 23 then rndHalfEven (a * 2 ^ (23 - f32exp a b).toNat) b
      else rndHalfEven a (b * 2 ^ (f32exp a b - 23).toNat)) = t
  split
  · split
    · rename_i h24 hlt
      have h1 : (f32exp a b + 128).toNat ≤ 254 := by omega
      have h2 := Nat.mul_le_mul_right (2 ^ 23) h1
      omega
    · norm_num
  · split
    · rename_i h24 ht
      omega
    · rename_i h24 ht
      have h1 : (f32exp a b + 127).toNat ≤ 254 := by omega
      have h2 := Nat.mul_le_mul_right (2 ^ 23) h1
      omega

lemma narrowToF32Bits_lt (q : ℚ) : narrowToF32Bits q < 2 ^ 32 := by
  unfold narrowToF32Bits
  split
  · have := narrowPosBits_lt (-q.num).toNat q.den; omega
  · split
    · norm_num
    · have := narrowPosBits_lt q.num.toNat q.den; omega

/-! ### Claim theorems -/

/-- C1: for every tick in which coil 302 is true, the simulation step sets
`enteringTemp` to `12.0 + sin(nowMillis / 10000) * 2.0` (the sine sample is
the parameter `sinNow`) and sets `leavingTemp` to
`leavingTemp + (settingTemp - leavingTemp) * 0.1` using the values after
steps 1–2 of the same tick; when coil 302 is false the simulation step
leaves both temperatures as steps 1–2 left them. -/
theorem c1_simulation_step (sinNow : ℚ) (st : ServerState) :
    (st.coils.c302 = true →
      (tickSim sinNow (tickIngest (tickReset st))).chillerData.enteringTemp
          = 12 + sinNow * 2 ∧
      (tickSim sinNow (tickIngest (tickReset st))).chillerData.leavingTemp
          = (tickIngest (tickReset st)).chillerData.leavingTemp +
              ((tickIngest (tickReset st)).chillerData.leavingTempSettings -
                (tickIngest (tickReset st)).chillerData.leavingTemp) * (1/10)) ∧
    (st.coils.c302 = false →
      (tickSim sinNow (tickIngest (tickReset st))).chillerData.enteringTemp
          = (tickIngest (tickReset st)).chillerData.enteringTemp ∧
      (tickSim sinNow (tickIngest (tickReset st))).chillerData.leavingTemp
          = (tickIngest (tickReset st)).chillerData.leavingTemp) := by
  have hc : (tickIngest (tickReset st)).coils.c302 = st.coils.c302 := by
    rw [tickIngest_coils, tickReset_c302]
  constructor
  · intro h
    unfold tickSim
    rw [if_pos (by rw [hc, h])]
    exact ⟨rfl, rfl⟩
  · intro h
    unfold tickSim
    rw [if_neg (by rw [hc, h]; simp)]
    exact ⟨rfl, rfl⟩

/-- C1 witness: the simulation-step equations instantiated at a state with
coil 302 on and at a state with coil 302 off, with `sinNow = 1`. -/
theorem c1_simulation_step_witness :
    demoSimOn.coils.c302 = true ∧
    (tickSim 1 (tickIngest (tickReset demoSimOn))).chillerData.enteringTemp
        = 12 + 1 * 2 ∧
    demoSimOff.coils.c302 = false ∧
    (tickSim 1 (tickIngest (tickReset demoSimOff))).chillerData.enteringTemp
        = (tickIngest (tickReset demoSimOff)).chillerData.enteringTemp :=
  ⟨rfl, ((c1_simulation_step 1 demoSimOn).1 rfl).1, rfl,
    ((c1_simulation_step 1 demoSimOff).2 rfl).1⟩

/-- C2: round trip of the float codec.  At the bit level, decoding the two
cells produced by encoding any rational gives exactly the narrowed float32
bit pattern (so the decoded double is `v` narrowed to float32 precision);
instantiated at 0.0, 7.0, 12.0, −40.0 (all exactly representable) and at
the double 3.14159 (`pi64`), whose float32 narrowing is 823549/262144. -/
theorem c2_codec_roundtrip :
    (∀ value : ℚ,
      registersToFloat32Bits (float32ToRegisters value).1 (float32ToRegisters value).2
        = narrowToF32Bits value) ∧
    registersToFloat32 (float32ToRegisters 0).1 (float32ToRegisters 0).2 = some 0 ∧
    registersToFloat32 (float32ToRegisters 7).1 (float32ToRegisters 7).2 = some 7 ∧
    registersToFloat32 (float32ToRegisters 12).1 (float32ToRegisters 12).2 = some 12 ∧
    registersToFloat32 (float32ToRegisters (-40)).1 (float32ToRegisters (-40)).2
      = some (-40) ∧
    registersToFloat32 (float32ToRegisters pi64).1 (float32ToRegisters pi64).2
      = some (823549 / 262144) := by
  refine ⟨?_, ?_, ?_, ?_, ?_, ?_⟩
  · intro value
    have h := narrowToF32Bits_lt value
    unfold float32ToRegisters registersToFloat32Bits
    dsimp only
    omega
  · have h : float32ToRegisters (0 : ℚ) = (0, 0) := by decide
    rw [h]
    norm_num [registersToFloat32, registersToFloat32Bits, f32RatOfBits]
  · have h : float32ToRegisters (7 : ℚ) = (16608, 0) := by decide
    rw [h]
    norm_num [registersToFloat32, registersToFloat32Bits, f32RatOfBits]
  · have h : float32ToRegisters (12 : ℚ) = (16704, 0) := by decide
    rw [h]
    norm_num [registersToFloat32, registersToFloat32Bits, f32RatOfBits]
  · have h : float32ToRegisters (-40 : ℚ) = (49696, 0) := by decide
    rw [h]
    norm_num [registersToFloat32, registersToFloat32Bits, f32RatOfBits]
  · have h : float32ToRegisters pi64 = (16457, 4048) := by decide
    rw [h]
    norm_num [registersToFloat32, registersToFloat32Bits, f32RatOfBits]

/-- C4: the setting-ingestion step adopts the float decoded from registers
0–1 exactly when it lies strictly in (0, 30); otherwise (including a
nonfinite decode) `settingTemp` keeps its value from after the reset check
of the same tick, and ingestion changes nothing else. -/
theorem c4_setting_ingestion (st : ServerState) :
    (tickIngest (tickReset st)).chillerData.leavingTempSettings
        = (match getFloat32Value st.regs 0 with
            | some v => if 0 < v ∧ v < 30 then v
                else (tickReset st).chillerData.leavingTempSettings
            | none => (tickReset st).chillerData.leavingTempSettings) ∧
    (tickIngest (tickReset st)).chillerData.enteringTemp
        = (tickReset st).chillerData.enteringTemp ∧
    (tickIngest (tickReset st)).chillerData.leavingTemp
        = (tickReset st).chillerData.leavingTemp ∧
    (tickIngest (tickReset st)).regs = st.regs ∧
    (tickIngest (tickReset st)).coils = (tickReset st).coils := by
  have hregs : (tickReset st).regs = st.regs := tickReset_regs st
  refine ⟨?_, tickIngest_enteringTemp _, tickIngest_leavingTemp _,
    by rw [tickIngest_regs, hregs], tickIngest_coils _⟩
  unfold tickIngest
  rw [hregs]
  cases h : getFloat32Value st.regs 0 with
  | none => rfl
  | some v => dsimp only; split <;> rfl

/-- C5: with coil 300 false, a tick writes no register cell: the register
array is identical before and after the tick. -/
theorem c5_publish_gating (sinNow : ℚ) (st : ServerState)
    (h : st.coils.c300 = false) : (tick sinNow st).regs = st.regs := by
  have hc : (tickSim sinNow (tickIngest (tickReset st))).coils.c300 = false := by
    rw [tickSim_coils, tickIngest_coils, tickReset_c300]; exact h
  unfold tick tickPublish
  rw [if_neg (by simp [hc])]
  rw [tickSim_regs, tickIngest_regs, tickReset_regs]

/-- C5 witness: a full tick on a publish-off state with simulation on
leaves the register array unchanged. -/
theorem c5_publish_gating_witness : (tick 1 demoSimOn).regs = demoSimOn.regs :=
  c5_publish_gating 1 demoSimOn rfl

/-- C9: a tick never modifies coils 300 or 302, and coil 301 always reads
false after a tick (the only coil write the loop performs is clearing 301
during a reset); with coil 301 already false the coils are untouched, so
every transition of a coil to true originates from a client write. -/
theorem c9_coil_frame (sinNow : ℚ) (st : ServerState) :
    (tick sinNow st).coils.c300 = st.coils.c300 ∧
    (tick sinNow st).coils.c302 = st.coils.c302 ∧
    (tick sinNow st).coils.c301 = false ∧
    (st.coils.c301 = false → (tick sinNow st).coils = st.coils) := by
  rw [tick_coils]
  refine ⟨rfl, rfl, rfl, fun h => ?_⟩
  rw [← h]

/-- C9 witness: the coil frame at a concrete state with coil 301 off. -/
theorem c9_coil_frame_witness :
    (tick 1 demoSimOn).coils.c300 = demoSimOn.coils.c300 ∧
    (tick 1 demoSimOn).coils.c302 = demoSimOn.coils.c302 ∧
    (tick 1 demoSimOn).coils.c301 = false ∧
    (demoSimOn.coils.c301 = false → (tick 1 demoSimOn).coils = demoSimOn.coils) :=
  c9_coil_frame 1 demoSimOn

/-- C3 counterexample: an out-of-range holding-register read (address −1)
and an out-of-range coil read (address 303) return their defaults but emit
no invalid-address diagnostic — the read callbacks contain no logging
statement — so the claim that each invalid operation (reads included) is
logged as invalid is false. -/
theorem c3_read_logging_counterexample :
    getHoldingRegister (List.replicate 1000 0) (-1) 1 = 0 ∧
    LogEvent.invalidRegister (-1) ∉ getHoldingRegisterLogs (List.replicate 1000 0) (-1) ∧
    getCoil ⟨true, false, true⟩ 303 = false ∧
    LogEvent.invalidCoil 303 ∉ getCoilLogs ⟨true, false, true⟩ 303 := by
  refine ⟨?_, by simp [getHoldingRegisterLogs], ?_, by simp [getCoilLogs]⟩
  · unfold getHoldingRegister
    rw [if_neg (by rintro ⟨h1, -⟩; norm_num at h1)]
  · unfold getCoil
    rw [if_neg (by rintro ⟨-, h2⟩; norm_num at h2)]

/-- C3 (amended): register and coil operations on out-of-range addresses
are rejected without mutation and without raising; an invalid *write* is
logged as invalid, while an invalid *read* returns its default (0 or
false) silently, the read callbacks emitting no diagnostic; in-range
operations succeed (a written register cell reads back, a written coil
reads back, and the write is logged). -/
theorem c3_address_validation_amended (regs : List ℕ) (c : Coils) (addr : ℤ) (v : ℕ)
    (b : Bool) (hlen : regs.length = 1000) :
    (¬ (0 ≤ addr ∧ addr < 1000) →
      getHoldingRegister regs addr 1 = 0 ∧
      getHoldingRegisterLogs regs addr = [] ∧
      setRegister regs addr v = (regs, LogEvent.invalidRegister addr)) ∧
    ((0 ≤ addr ∧ addr < 1000) →
      getHoldingRegister (setRegister regs addr v).1 addr 1 = v ∧
      (setRegister regs addr v).2 = LogEvent.registerSet addr v) ∧
    (¬ (300 ≤ addr ∧ addr ≤ 302) →
      getCoil c addr = false ∧
      getCoilLogs c addr = [] ∧
      setCoil c addr b = (c, LogEvent.invalidCoil addr)) ∧
    ((300 ≤ addr ∧ addr ≤ 302) →
      getCoil (setCoil c addr b).1 addr = b ∧
      (setCoil c addr b).2 = LogEvent.coilSet addr b) := by
  have hlen' : (regs.length : ℤ) = 1000 := by exact_mod_cast hlen
  refine ⟨fun h => ?_, fun h => ?_, fun h => ?_, fun h => ?_⟩
  · refine ⟨?_, rfl, ?_⟩
    · unfold getHoldingRegister
      rw [hlen', if_neg h]
    · unfold setRegister
      rw [hlen', if_neg h]
  · have hn : addr.toNat < regs.length := by omega
    unfold setRegister
    rw [hlen', if_pos h]
    dsimp only
    refine ⟨?_, rfl⟩
    unfold getHoldingRegister
    rw [if_pos (by simp only [List.length_set, hlen']; exact h)]
    rw [List.getD_eq_getElem _ _ (by simpa using hn)]
    simp [List.getElem_set]
  · refine ⟨?_, rfl, ?_⟩
    · unfold getCoil
      rw [if_neg h]
    · unfold setCoil
      rw [if_neg h]
  · have h3 : addr = 300 ∨ addr = 301 ∨ addr = 302 := by omega
    rcases h3 with h3 | h3 | h3 <;> subst h3 <;>
      exact ⟨by norm_num [getCoil, setCoil], by norm_num [setCoil]⟩

/-- C3 witness: a read at address −1 returns 0 and emits no diagnostic, a
coil read at 299 returns false, and a coil write at 301 reads back. -/
theorem c3_address_validation_amended_witness :
    getHoldingRegister (List.replicate 1000 0) (-1) 1 = 0 ∧
    getHoldingRegisterLogs (List.replicate 1000 0) (-1) = [] ∧
    getCoil ⟨true, false, true⟩ 299 = false ∧
    getCoil (setCoil ⟨true, false, true⟩ 301 true).1 301 = true :=
  ⟨((c3_address_validation_amended (List.replicate 1000 0) ⟨true, false, true⟩ (-1) 5 true
      (List.length_replicate 1000 0)).1 (by decide)).1,
   ((c3_address_validation_amended (List.replicate 1000 0) ⟨true, false, true⟩ (-1) 5 true
      (List.length_replicate 1000 0)).1 (by decide)).2.1,
   ((c3_address_validation_amended (List.replicate 1000 0) ⟨true, false, true⟩ 299 5 true
      (List.length_replicate 1000 0)).2.2.1 (by decide)).1,
   ((c3_address_validation_amended (List.replicate 1000 0) ⟨true, false, true⟩ 301 5 true
      (List.length_replicate 1000 0)).2.2.2 (by decide)).1⟩

/-- C6 (amended): with coil 301 set, the reset check restores the default
chiller values and clears coil 301, and coil 301 reads false at the end of
the tick; the restored values survive to the end of the tick when the same
tick's setting ingestion adopts nothing and coil 302 is off — but the
original claim that a full tick always ends at exactly the defaults is
false, because ingestion and simulation run after the reset
(`c6_reset_counterexample`). -/
theorem c6_reset_amended (sinNow : ℚ) (st : ServerState) (h : st.coils.c301 = true) :
    (tickReset st).chillerData = ⟨7, 12, 15/2⟩ ∧
    (tickReset st).coils.c301 = false ∧
    (tick sinNow st).coils.c301 = false ∧
    (st.coils.c302 = false → ingestAdopts st.regs = false →
      (tick sinNow st).chillerData = ⟨7, 12, 15/2⟩) := by
  have hches : (tickReset st).chillerData = ⟨7, 12, 15/2⟩ := by
    rw [tickReset_chillerData, if_pos h]
  refine ⟨hches, ?_, by rw [tick_coils], ?_⟩
  · rw [tickReset_coils, if_pos h]
  · intro h302 hna
    have hi : tickIngest (tickReset st) = tickReset st := by
      apply tickIngest_of_not_adopts
      rw [tickReset_regs]
      exact hna
    have hc2 : (tickReset st).coils.c302 = false := by
      rw [tickReset_c302]
      exact h302
    unfold tick
    rw [tickPublish_chillerData, hi, tickSim_of_c302_false _ _ hc2]
    exact hches

/-- C6 witness: the amended reset behaviour at a concrete state with coil
301 on and coil 302 off. -/
theorem c6_reset_amended_witness :
    demoResetOff.coils.c301 = true ∧
    (tickReset demoResetOff).chillerData = ⟨7, 12, 15/2⟩ ∧
    (tickReset demoResetOff).coils.c301 = false ∧
    (tick 1 demoResetOff).coils.c301 = false ∧
    (demoResetOff.coils.c302 = false → ingestAdopts demoResetOff.regs = false →
      (tick 1 demoResetOff).chillerData = ⟨7, 12, 15/2⟩) := by
  have h := c6_reset_amended 1 demoResetOff rfl
  exact ⟨rfl, h.1, h.2.1, h.2.2.1, h.2.2.2⟩

/-- C6 counterexample: with coil 301 and coil 302 both set and
`sinNow = 1`, the tick ends with `enteringTemp = 14 ≠ 12` (and
`leavingTemp = 7.45 ≠ 7.5`), so a tick started with coil 301 true does not
always end at exactly the reset values. -/
theorem c6_reset_counterexample :
    resetCexState.coils.c301 = true ∧
    ¬ ((tick 1 resetCexState).chillerData.leavingTempSettings = 7 ∧
       (tick 1 resetCexState).chillerData.enteringTemp = 12 ∧
       (tick 1 resetCexState).chillerData.leavingTemp = 15/2 ∧
       (tick 1 resetCexState).coils.c301 = false) := by
  refine ⟨rfl, ?_⟩
  have hdec : getFloat32Value (List.replicate 1000 0) 0 = some 0 := by
    norm_num [getFloat32Value, registersToFloat32, registersToFloat32Bits, f32RatOfBits]
  have h1 : tick 1 resetCexState
      = tickPublish (tickSim 1 (tickIngest
          ⟨List.replicate 1000 0, ⟨false, false, true⟩, ⟨7, 12, 15/2⟩⟩)) := rfl
  have h2 : tickIngest ⟨List.replicate 1000 0, ⟨false, false, true⟩, ⟨7, 12, 15/2⟩⟩
      = ⟨List.replicate 1000 0, ⟨false, false, true⟩, ⟨7, 12, 15/2⟩⟩ := by
    unfold tickIngest
    rw [show getFloat32Value (List.replicate 1000 0 : List ℕ) 0 = some 0 from hdec]
    norm_num
  rintro ⟨-, he, -, -⟩
  rw [h1, h2] at he
  norm_num [tickSim, tickPublish] at he

/-- C7 (amended): the process-model values after a tick are determined by
the previous chiller values, the coil states, the wall-clock sine sample,
and additionally the contents of registers 0–1 (which the original claim
wrongly excluded, see `c7_determinism_counterexample`); registers 2–999
have no influence. -/
theorem c7_determinism_amended (sinNow : ℚ) (s t : ServerState)
    (hch : s.chillerData = t.chillerData) (hco : s.coils = t.coils)
    (h0 : s.regs.getD 0 0 = t.regs.getD 0 0)
    (h1 : s.regs.getD 1 0 = t.regs.getD 1 0) :
    (tick sinNow s).chillerData = (tick sinNow t).chillerData := by
  have hget : getFloat32Value s.regs 0 = getFloat32Value t.regs 0 := by
    unfold getFloat32Value
    rw [h0, h1]
  unfold tick
  simp only [tickPublish_chillerData, tickSim_chillerData, tickIngest_coils,
    tickIngest_chillerData, tickReset_regs, tickReset_coils, tickReset_chillerData]
  rw [hget, hch, hco]

set_option maxRecDepth 20000 in
/-- C7 witness: two states that differ only in register 500 produce the
same chiller values after a tick. -/
theorem c7_determinism_amended_witness :
    detStA.chillerData = detStC.chillerData ∧
    detStA.coils = detStC.coils ∧
    (tick 0 detStA).chillerData = (tick 0 detStC).chillerData :=
  ⟨rfl, rfl, c7_determinism_amended 0 detStA detStC rfl rfl rfl rfl⟩

/-- C7 counterexample: two states with equal chiller values, equal coils
and the same time sample but different registers 0–1 (one holds 15.0f)
end the tick with different `settingTemp` (7 versus 15), so register
contents do influence the process model. -/
theorem c7_determinism_counterexample :
    detStA.chillerData = detStB.chillerData ∧
    detStA.coils = detStB.coils ∧
    (tick 0 detStA).chillerData ≠ (tick 0 detStB).chillerData := by
  refine ⟨rfl, rfl, ?_⟩
  have hdA : getFloat32Value detStA.regs 0 = some 0 := by
    show getFloat32Value (List.replicate 1000 0) 0 = some 0
    norm_num [getFloat32Value, registersToFloat32, registersToFloat32Bits, f32RatOfBits]
  have hA : tick 0 detStA = detStA := by
    unfold tick
    rw [show tickReset detStA = detStA from rfl]
    rw [tickIngest_of_not_adopts _ (by unfold ingestAdopts; rw [hdA]; simp)]
    rw [tickSim_of_c302_false _ _ rfl]
    unfold tickPublish
    rw [if_neg (by decide)]
  have hdB : getFloat32Value detStB.regs 0 = some 15 := by
    show registersToFloat32 (((List.replicate 1000 0).set 0 16752).getD 0 0)
        (((List.replicate 1000 0).set 0 16752).getD 1 0) = some 15
    rw [show ((List.replicate 1000 0).set 0 16752).getD 0 0 = 16752 from rfl,
        show ((List.replicate 1000 0).set 0 16752).getD 1 0 = 0 from rfl]
    norm_num [registersToFloat32, registersToFloat32Bits, f32RatOfBits]
  have hB : tick 0 detStB = { detStB with chillerData := ⟨15, 12, 12⟩ } := by
    unfold tick
    rw [show tickReset detStB = detStB from rfl]
    have hi : tickIngest detStB = { detStB with chillerData := ⟨15, 12, 12⟩ } := by
      unfold tickIngest
      rw [hdB]
      dsimp only
      rw [if_pos (show (0:ℚ) < 15 ∧ (15:ℚ) < 30 by norm_num)]
      rfl
    rw [hi]
    rw [tickSim_of_c302_false _ _ rfl]
    unfold tickPublish
    rw [if_neg (by decide)]
  rw [hA, hB]
  intro hcontra
  have h715 : (7 : ℚ) = 15 := congrArg ChillerData.leavingTempSettings hcontra
  norm_num at h715

/-- C8: `settingTemp` stays strictly inside (0, 30): it starts at 7.0, a
tick preserves the interval (reset writes 7.0 and ingestion only adopts
values inside the interval), and client register or coil writes never touch
the chiller state. -/
theorem c8_setting_invariant (sinNow : ℚ) (st : ServerState) (addr : ℤ) (v : ℕ) (b : Bool)
    (h : 0 < st.chillerData.leavingTempSettings ∧ st.chillerData.leavingTempSettings < 30) :
    (0 < (tick sinNow st).chillerData.leavingTempSettings ∧
      (tick sinNow st).chillerData.leavingTempSettings < 30) ∧
    (clientWriteRegister st addr v).chillerData = st.chillerData ∧
    (clientWriteCoil st addr b).chillerData = st.chillerData ∧
    (0 < initialState.chillerData.leavingTempSettings ∧
      initialState.chillerData.leavingTempSettings < 30) := by
  refine ⟨?_, rfl, rfl, by norm_num [initialState]⟩
  have h1 : 0 < (tickReset st).chillerData.leavingTempSettings ∧
      (tickReset st).chillerData.leavingTempSettings < 30 := by
    rw [tickReset_chillerData]
    split
    · norm_num
    · exact h
  have h2 : 0 < (tickIngest (tickReset st)).chillerData.leavingTempSettings ∧
      (tickIngest (tickReset st)).chillerData.leavingTempSettings < 30 := by
    rw [tickIngest_chillerData]
    cases hd : getFloat32Value (tickReset st).regs 0 with
    | none => exact h1
    | some w =>
        dsimp only
        by_cases hw : 0 < w ∧ w < 30
        · rw [if_pos hw]; exact hw
        · rw [if_neg hw]; exact h1
  unfold tick
  rw [tickPublish_chillerData, tickSim_settings]
  exact h2

/-- C8 witness: the invariant holds at startup and after one tick from the
initial state. -/
theorem c8_setting_invariant_witness :
    (0 < initialState.chillerData.leavingTempSettings ∧
      initialState.chillerData.leavingTempSettings < 30) ∧
    (0 < (tick 1 initialState).chillerData.leavingTempSettings ∧
      (tick 1 initialState).chillerData.leavingTempSettings < 30) :=
  ⟨by decide, (c8_setting_invariant 1 initialState (-1) 5 true (by decide)).1⟩

set_option maxRecDepth 20000 in
/-- C10: an input-register read returns 0 for every address, while the
published values are visible through the holding-register interface
(holding register 0 of the freshly initialized state carries 16608, the
high half of 7.0f). -/
theorem c10_input_registers (addr : ℤ) :
    getInputRegister addr = 0 ∧
    getHoldingRegister initialState.regs 0 1 = 16608 := by
  constructor
  · rfl
  · decide

end DataFeeder
